import Mathlib

/-!
Shallow embedding of the caresma voice-assistant pipeline.

The definitions below are translated from the repository's TypeScript
sources:
  * `src/lib/stores/conversation.svelte.ts` — conversation store: the
    streamed-response demultiplexer, `processUserAudio`, `requestGreeting`,
    progressive playback hand-off;
  * `src/lib/components/VoiceRecorder.svelte` — the VAD turn detector
    (`updateLevel`, `startTurn`, `stopTurn`);
  * `src/lib/server/api/index.ts` — the Hono routes `/greeting`,
    `/process-audio`, `/analyze`;
  * the analysis prompt module — the zod `CognitiveAssessmentSchema`.

Byte streams are modelled as `List Nat` (one `Nat` per byte), JS strings as
Lean `String`, JS numbers in JSON values as `ℚ`, and timestamps
(`Date.now()`) as `ℤ`.  Asynchronous code is modelled by explicit state
passing: each handler becomes a pure function from its inputs (including
the outcomes of awaited external calls, passed as explicit arguments) to
the resulting state together with a trace of observable events.
-/

/-- Byte strings: one natural number per byte. -/
abbrev Bytes := List Nat

/-- UTF-8 bytes of an ASCII string: every character below `0x80` encodes
as its own code point. -/
def asciiBytes (s : String) : Bytes := s.data.map Char.toNat

/-- The newline byte `0x0a`, the wire protocol's header delimiter. -/
def NL : Nat := 0x0a

/-- Splitting one network chunk at the first `0x0a` byte.  Models
`const nlIndex = value.indexOf(0x0a)` followed by
`value.slice(0, nlIndex)` / `value.slice(nlIndex + 1)` in
`conversation.svelte.ts` (the header-scan loop of `processUserAudio` and
`requestGreeting`): the result is `none` when the chunk holds no newline
(`nlIndex === -1`), otherwise the bytes strictly before the first newline
and the bytes strictly after it. -/
def splitNl : Bytes → Option (Bytes × Bytes)
  | [] => none
  | b :: bs =>
    if b = NL then some ([], bs)
    else
      match splitNl bs with
      | none => none
      | some (t, d) => some (b :: t, d)

/-- Outcome of the client's phase-1 scan plus the subsequent audio reads:
`textBytes` is the concatenation of `textByteChunks`, `audioBytes` is
`firstAudioChunk` followed by every chunk read after the delimiter, and
`foundDelimiter` mirrors the loop flag of the same name. -/
structure DemuxResult where
  textBytes : Bytes
  audioBytes : Bytes
  foundDelimiter : Bool
deriving Repr, DecidableEq

/-- The client's demultiplexing of one response body delivered as a list of
network chunks (`conversation.svelte.ts`, `processUserAudio` lines 306-327
and the identical loop in `requestGreeting`): chunks are scanned until the
first `0x0a`; a chunk without it is pushed whole onto `textByteChunks`; the
chunk containing it contributes `slice(0, nlIndex)` to the text (only
pushed when `nlIndex > 0`) and `slice(nlIndex + 1)` as `firstAudioChunk`
(only when `nlIndex + 1 < value.length`, else `firstAudioChunk` stays
`null`); every chunk after that is read by `playStreamingAudio`, whose two
strategies both concatenate `firstChunk` with all remaining reads. -/
def demux : List Bytes → DemuxResult
  | [] => ⟨[], [], false⟩
  | value :: rest =>
    match splitNl value with
    | some (t, d) =>
        ⟨(if t.isEmpty then [] else t),
         (if d.isEmpty then [] else d) ++ rest.flatten,
         true⟩
    | none =>
        let r := demux rest
        ⟨value ++ r.textBytes, r.audioBytes, r.foundDelimiter⟩

/-- UTF-8 encoding of one character, as performed by the server's
`TextEncoder` when building the header line. -/
def utf8EncodeChar (c : Char) : Bytes :=
  let n := c.toNat
  if n < 0x80 then [n]
  else if n < 0x800 then [0xc0 + n / 0x40, 0x80 + n % 0x40]
  else if n < 0x10000 then [0xe0 + n / 0x1000, 0x80 + n / 0x40 % 0x40, 0x80 + n % 0x40]
  else [0xf0 + n / 0x40000, 0x80 + n / 0x1000 % 0x40, 0x80 + n / 0x40 % 0x40, 0x80 + n % 0x40]

/-- UTF-8 encoding of a string (`new TextEncoder().encode(...)`). -/
def utf8Encode (s : String) : Bytes := (s.data.map utf8EncodeChar).flatten

/-- Is `b` a UTF-8 continuation byte `10xxxxxx`? -/
def isCont (b : Nat) : Bool := 0x80 ≤ b && b < 0xc0

/-- Decode one UTF-8 scalar value from the head of a byte list, returning
the code point and the remaining bytes. -/
def utf8Step : Bytes → Option (Nat × Bytes)
  | [] => none
  | b :: bs =>
    if b < 0x80 then some (b, bs)
    else if b < 0xc0 then none
    else if b < 0xe0 then
      match bs with
      | b2 :: bs2 =>
        if isCont b2 then some ((b - 0xc0) * 0x40 + (b2 - 0x80), bs2) else none
      | _ => none
    else if b < 0xf0 then
      match bs with
      | b2 :: b3 :: bs3 =>
        if isCont b2 && isCont b3 then
          some (((b - 0xe0) * 0x40 + (b2 - 0x80)) * 0x40 + (b3 - 0x80), bs3)
        else none
      | _ => none
    else if b < 0xf8 then
      match bs with
      | b2 :: b3 :: b4 :: bs4 =>
        if isCont b2 && isCont b3 && isCont b4 then
          some ((((b - 0xf0) * 0x40 + (b2 - 0x80)) * 0x40 + (b3 - 0x80)) * 0x40 + (b4 - 0x80), bs4)
        else none
      | _ => none
    else none

/-- Fuel-driven UTF-8 decoding loop; the fuel is an upper bound on the
number of characters and is always supplied large enough. -/
def utf8DecodeAux : Nat → Bytes → Option (List Char)
  | 0, _ => none
  | _ + 1, [] => some []
  | fuel + 1, b :: bs =>
    match utf8Step (b :: bs) with
    | none => none
    | some (n, rest) =>
      match utf8DecodeAux fuel rest with
      | none => none
      | some cs => some (Char.ofNat n :: cs)

/-- The client's `TextDecoder` applied to the concatenated header bytes
(the per-chunk streaming decode concatenates to the same result).  An
invalid byte sequence is modelled as failure (`none`); the browser would
instead substitute U+FFFD, after which `JSON.parse` fails on the garbled
text, so both models take the error path of the caller. -/
def utf8Decode (bs : Bytes) : Option String :=
  (utf8DecodeAux (bs.length + 1) bs).map String.mk

/-- JSON values: the results of `JSON.parse` and the payloads of
`c.json(...)` responses. -/
inductive Json where
  | null
  | bool (b : Bool)
  | num (q : ℚ)
  | str (s : String)
  | arr (items : List Json)
  | obj (fields : List (String × Json))
deriving Repr, Inhabited

/-- JSON insignificant whitespace. -/
def isJsonWs (c : Char) : Bool := c = ' ' || c = '\t' || c = '\n' || c = '\r'

/-- Skip insignificant whitespace between JSON tokens. -/
def skipWs : List Char → List Char
  | [] => []
  | c :: cs => if isJsonWs c then skipWs cs else c :: cs

/-- Value of a hexadecimal digit. -/
def hexVal (c : Char) : Option Nat :=
  if '0' ≤ c ∧ c ≤ '9' then some (c.toNat - 48)
  else if 'a' ≤ c ∧ c ≤ 'f' then some (c.toNat - 87)
  else if 'A' ≤ c ∧ c ≤ 'F' then some (c.toNat - 55)
  else none

/-- Single-character JSON string escapes. -/
def escChar (c : Char) : Option Char :=
  if c = '"' then some '"'
  else if c = '\\' then some '\\'
  else if c = '/' then some '/'
  else if c = 'n' then some '\n'
  else if c = 't' then some '\t'
  else if c = 'r' then some '\r'
  else if c = 'b' then some (Char.ofNat 8)
  else if c = 'f' then some (Char.ofNat 12)
  else none

/-- Parse the body of a JSON string after its opening quote, returning the
decoded characters and the input after the closing quote.  Surrogate-pair
`\u` escapes are decoded escape-by-escape (unpaired halves become the
default character), which agrees with `JSON.parse` on all scalar values. -/
def parseStrBody : Nat → List Char → Option (List Char × List Char)
  | 0, _ => none
  | _ + 1, [] => none
  | fuel + 1, c :: cs =>
    if c = '"' then some ([], cs)
    else if c = '\\' then
      match cs with
      | 'u' :: h1 :: h2 :: h3 :: h4 :: cs2 =>
        match hexVal h1, hexVal h2, hexVal h3, hexVal h4 with
        | some a, some b, some c3, some d =>
          match parseStrBody fuel cs2 with
          | some (s, rest) => some (Char.ofNat (((a * 16 + b) * 16 + c3) * 16 + d) :: s, rest)
          | none => none
        | _, _, _, _ => none
      | e :: cs2 =>
        match escChar e with
        | some ce =>
          match parseStrBody fuel cs2 with
          | some (s, rest) => some (ce :: s, rest)
          | none => none
        | none => none
      | [] => none
    else
      match parseStrBody fuel cs with
      | some (s, rest) => some (c :: s, rest)
      | none => none

/-- Numeric value of a run of decimal digits. -/
def digitsVal (ds : List Char) : Nat := ds.foldl (fun a c => a * 10 + (c.toNat - 48)) 0

/-- Parse an optional JSON fraction part `.ddd`. -/
def parseFrac (cs : List Char) : Option (ℚ × List Char) :=
  match cs with
  | '.' :: rest =>
    let ds := rest.takeWhile Char.isDigit
    let r := rest.dropWhile Char.isDigit
    if ds = [] then none
    else some ((digitsVal ds : ℚ) / ((10 : ℚ) ^ ds.length), r)
  | _ => some (0, cs)

/-- Parse the digits of a JSON exponent after `e`/`E`. -/
def parseExpTail (cs : List Char) : Option (ℤ × List Char) :=
  let sign : ℤ × List Char :=
    match cs with
    | '+' :: r => (1, r)
    | '-' :: r => (-1, r)
    | _ => (1, cs)
  let ds := sign.2.takeWhile Char.isDigit
  let r := sign.2.dropWhile Char.isDigit
  if ds = [] then none else some (sign.1 * (digitsVal ds : ℤ), r)

/-- Parse an optional JSON exponent part. -/
def parseExp (cs : List Char) : Option (ℤ × List Char) :=
  match cs with
  | 'e' :: rest => parseExpTail rest
  | 'E' :: rest => parseExpTail rest
  | _ => some (0, cs)

/-- Parse a JSON number into an exact rational.  JavaScript parses into
IEEE-754 doubles; all comparisons made by the code under scrutiny are
order comparisons against small constants, which the rational model
reflects faithfully. -/
def parseNum (cs : List Char) : Option (ℚ × List Char) :=
  let signed : Bool × List Char :=
    match cs with
    | '-' :: rest => (true, rest)
    | _ => (false, cs)
  let ds := signed.2.takeWhile Char.isDigit
  let cs2 := signed.2.dropWhile Char.isDigit
  if ds = [] then none
  else
    match parseFrac cs2 with
    | none => none
    | some (f, cs3) =>
      match parseExp cs3 with
      | none => none
      | some (e, cs4) =>
        let mag : ℚ := ((digitsVal ds : ℚ) + f) * (10 : ℚ) ^ e
        some (if signed.1 then -mag else mag, cs4)

/-- Which grammatical item the recursive-descent core is parsing. -/
inductive PMode where
  | value
  | items
  | members

/-- Result of one core parsing step. -/
inductive POut where
  | value (j : Json)
  | items (xs : List Json)
  | members (fs : List (String × Json))

/-- Recursive-descent core of the `JSON.parse` model.  The three modes
parse a value, the items of a non-empty array, and the members of a
non-empty object; the fuel decreases on every recursive call and is
supplied large enough by `jsonParse`. -/
def parseCore : Nat → PMode → List Char → Option (POut × List Char)
  | 0, _, _ => none
  | fuel + 1, .value, cs =>
    match skipWs cs with
    | [] => none
    | c :: rest =>
      if c = 'n' then
        match rest with
        | 'u' :: 'l' :: 'l' :: r => some (.value .null, r)
        | _ => none
      else if c = 't' then
        match rest with
        | 'r' :: 'u' :: 'e' :: r => some (.value (.bool true), r)
        | _ => none
      else if c = 'f' then
        match rest with
        | 'a' :: 'l' :: 's' :: 'e' :: r => some (.value (.bool false), r)
        | _ => none
      else if c = '"' then
        match parseStrBody (fuel + 1) rest with
        | some (s, r) => some (.value (.str (String.mk s)), r)
        | none => none
      else if c = '[' then
        match skipWs rest with
        | ']' :: r => some (.value (.arr []), r)
        | _ =>
          match parseCore fuel .items rest with
          | some (.items xs, r) => some (.value (.arr xs), r)
          | _ => none
      else if c.toNat = 0x7b then
        match skipWs rest with
        | c2 :: r2 =>
          if c2.toNat = 0x7d then some (.value (.obj []), r2)
          else
            match parseCore fuel .members rest with
            | some (.members fs, r) => some (.value (.obj fs), r)
            | _ => none
        | [] => none
      else
        match parseNum (c :: rest) with
        | some (q, r) => some (.value (.num q), r)
        | none => none
  | fuel + 1, .items, cs =>
    match parseCore fuel .value cs with
    | some (.value v, r) =>
      (match skipWs r with
       | ',' :: r2 =>
         match parseCore fuel .items r2 with
         | some (.items xs, r3) => some (.items (v :: xs), r3)
         | _ => none
       | ']' :: r2 => some (.items [v], r2)
       | _ => none)
    | _ => none
  | fuel + 1, .members, cs =>
    match skipWs cs with
    | '"' :: r =>
      (match parseStrBody (fuel + 1) r with
       | none => none
       | some (k, r2) =>
         match skipWs r2 with
         | ':' :: r3 =>
           (match parseCore fuel .value r3 with
            | some (.value v, r4) =>
              (match skipWs r4 with
               | ',' :: r5 =>
                 (match parseCore fuel .members r5 with
                  | some (.members fs, r6) => some (.members ((String.mk k, v) :: fs), r6)
                  | _ => none)
               | c2 :: r5 =>
                 if c2.toNat = 0x7d then some (.members [(String.mk k, v)], r5)
                 else none
               | [] => none)
            | _ => none)
         | _ => none)
    | _ => none

/-- Model of `JSON.parse`: `none` where the runtime would throw a
`SyntaxError`. -/
def jsonParse (s : String) : Option Json :=
  match parseCore (2 * s.length + 4) .value s.data with
  | some (.value v, r) => if skipWs r = [] then some v else none
  | _ => none

/-- JS whitespace as stripped by `String.prototype.trim` (the ASCII
portion; the strings at play are ASCII). -/
def isJsWs (c : Char) : Bool :=
  c = ' ' || c = '\t' || c = '\n' || c = '\r' || c.toNat = 0x0b || c.toNat = 0x0c

/-- `String.prototype.trim`, modelled on the character list so that it
computes by kernel reduction. -/
def jsTrim (s : String) : String :=
  String.mk (((s.data.dropWhile isJsWs).reverse.dropWhile isJsWs).reverse)

/-- Last-occurrence field lookup on a JSON object: `JSON.parse` keeps the
last of duplicate keys, and property access reads that survivor. -/
def lookupLast (fs : List (String × Json)) (key : String) : Option Json :=
  (fs.reverse.find? (fun p => p.1 == key)).map (·.2)

/-- Stand-in for the message of the `SyntaxError` thrown by `JSON.parse`;
the client only stores `err.message` and never inspects it. -/
def jsonErrorMsg : String := "Unexpected token in JSON"

/-- JS expression `parsed.key || ''` whose result is then used as a string
(trimmed or stored as message content).  Falsy field values (absent,
`null`, `false`, `0`, `''`) collapse to `''`; property access on a parsed
`null` throws a `TypeError`, and a truthy non-string value makes the later
string method throw — both modelled as `none`, the caller's catch path.
Field access on any other non-object primitive yields `undefined`, hence
`''`. -/
def jsStrFieldOrEmpty (j : Json) (key : String) : Option String :=
  match j with
  | .null => none
  | .obj fs =>
    match lookupLast fs key with
    | none => some ""
    | some .null => some ""
    | some (.bool false) => some ""
    | some (.bool true) => none
    | some (.num q) => if q = 0 then some "" else none
    | some (.str s) => some s
    | some (.arr _) => none
    | some (.obj _) => none
  | _ => some ""

/-- Header handling of `processUserAudio` after the delimiter scan: decode
the accumulated text bytes (`TextDecoder`), `JSON.parse` them, and read
`parsed.text || ''` and `parsed.transcript || ''`.  `none` is the thrown
path.  The model requires the `text` field, like `transcript`, to be
string-valued or falsy; the server always emits strings there. -/
def clientHeaderFields (bs : Bytes) : Option (String × String) :=
  match utf8Decode bs with
  | none => none
  | some str =>
    match jsonParse str with
    | none => none
    | some j =>
      match jsStrFieldOrEmpty j "transcript", jsStrFieldOrEmpty j "text" with
      | some transcript, some text => some (text, transcript)
      | _, _ => none

/-- Header handling of `requestGreeting`: only `parsed.text || ''`. -/
def headerTextField (bs : Bytes) : Option String :=
  match utf8Decode bs with
  | none => none
  | some str =>
    match jsonParse str with
    | none => none
    | some j => jsStrFieldOrEmpty j "text"

/-- Message roles. -/
inductive Role where
  | user
  | assistant
deriving Repr, DecidableEq

/-- One line of conversation, as appended by `addMessage` (the generated
`id` and `timestamp` carry no behaviour and are omitted). -/
structure Message where
  role : Role
  content : String
deriving Repr, DecidableEq

/-- The four-valued avatar/activity state. -/
inductive AvatarState where
  | idle
  | listening
  | thinking
  | speaking
deriving Repr, DecidableEq

/-- The conversation store's reactive state
(`conversation.svelte.ts` lines 4-13); `currentAudio` is the playback
handle slot (`none` = `null`). -/
structure ConvState where
  messages : List Message
  avatarState : AvatarState
  isProcessing : Bool
  isSessionActive : Bool
  error : Option String
  currentAudio : Option Nat
deriving Repr, DecidableEq

/-- Observable events of one client handler run, in program order. -/
inductive PEvent where
  | headerParsed (text transcript : String)
  | messageAdded (role : Role) (content : String)
  | playbackStarted (audio : Bytes)
  | fallbackAdded
deriving Repr, DecidableEq

/-- Outcome of the awaited network interaction of `processUserAudio` or
`requestGreeting`: the fetch throws, the response is non-ok (carrying the
`error` field of its JSON body when one is usable), the response has no
body, or the body streams the given chunks.  `playbackFails` is the
rejection of the playback promise (possible in the blob fallback
strategy); the MediaSource strategy resolves even on element errors. -/
inductive FetchOutcome where
  | netError (msg : String)
  | httpError (errField : Option String)
  | noBody
  | stream (chunks : List Bytes) (playbackFails : Bool)
deriving Repr, DecidableEq

/-- JS `x || 'default'` on an optional error-message string. -/
def jsOrDefault (e : Option String) (d : String) : String :=
  match e with
  | some m => if m = "" then d else m
  | none => d

/-- The client's `processUserAudio` (`conversation.svelte.ts` lines
275-362) as a state transformer with an event trace.  The re-entry guard
returns at once; otherwise `isProcessing`/`error`/`avatarState` are set,
the response is demultiplexed, the header fields are parsed, an
empty-trimmed transcript short-circuits back to listening, and otherwise
the user and assistant messages are appended before playback is handed
the audio bytes.  Playback (either strategy) consumes the whole reader
and releases the audio handle; every thrown error lands in the catch
branch, and `finally` clears `isProcessing`. -/
def processUserAudio (s : ConvState) (r : FetchOutcome) : ConvState × List PEvent :=
  if s.isProcessing then (s, [])
  else
    let s0 : ConvState := {s with isProcessing := true, error := none, avatarState := .thinking}
    let fin := fun (p : ConvState × List PEvent) => ({p.1 with isProcessing := false}, p.2)
    let catchP := fun (sc : ConvState) (msg : String) (tr : List PEvent) =>
      fin ({sc with error := some msg,
                    avatarState := if sc.isSessionActive then AvatarState.listening else .idle}, tr)
    match r with
    | .netError m => catchP s0 m []
    | .httpError e => catchP s0 (jsOrDefault e "Processing failed") []
    | .noBody => catchP s0 "No response body" []
    | .stream chunks playbackFails =>
      let d := demux chunks
      match clientHeaderFields d.textBytes with
      | none => catchP s0 jsonErrorMsg []
      | some (text, transcript) =>
        if jsTrim transcript = "" then
          fin ({s0 with avatarState := if s0.isSessionActive then .listening else .idle},
               [.headerParsed text transcript])
        else
          let s1 : ConvState :=
            {s0 with messages := s0.messages ++ [⟨.user, transcript⟩, ⟨.assistant, text⟩],
                     avatarState := .speaking}
          let tr : List PEvent :=
            [.headerParsed text transcript, .messageAdded .user transcript,
             .messageAdded .assistant text, .playbackStarted d.audioBytes]
          if playbackFails then catchP {s1 with currentAudio := none} "Audio playback failed" tr
          else
            fin ({s1 with currentAudio := none,
                          avatarState := if s1.isSessionActive then .listening else .idle}, tr)

/-- The hardcoded fallback assistant message of `requestGreeting`. -/
def clientGreetingFallback : String :=
  "How has your day been so far? I\x27d love to hear about it."

/-- The client's `requestGreeting` (`conversation.svelte.ts` lines 26-74):
on any thrown error (failed fetch, non-ok status, missing body, header
parse failure, playback rejection) the catch branch records the error and
appends the hardcoded fallback assistant message; the `finally` branch
always returns the avatar to `listening` while the session is active.  A
non-empty trimmed greeting text is appended before playback. -/
def requestGreeting (s : ConvState) (r : FetchOutcome) : ConvState × List PEvent :=
  let fin := fun (p : ConvState × List PEvent) =>
    ({p.1 with avatarState := if p.1.isSessionActive then AvatarState.listening else .idle}, p.2)
  let catchP := fun (sc : ConvState) (msg : String) (tr : List PEvent) =>
    fin ({sc with error := some msg,
                  messages := sc.messages ++ [⟨.assistant, clientGreetingFallback⟩]},
         tr ++ [.fallbackAdded])
  match r with
  | .netError m => catchP s m []
  | .httpError e => catchP s (jsOrDefault e "Failed to get greeting") []
  | .noBody => catchP s "No response body" []
  | .stream chunks playbackFails =>
    let d := demux chunks
    match headerTextField d.textBytes with
    | none => catchP s jsonErrorMsg []
    | some text =>
      let s1 : ConvState :=
        if jsTrim text = "" then s
        else {s with messages := s.messages ++ [⟨.assistant, text⟩]}
      let tr : List PEvent :=
        (if jsTrim text = "" then [] else [.messageAdded .assistant text]) ++
          [.playbackStarted d.audioBytes]
      let s2 : ConvState := {s1 with avatarState := .speaking, currentAudio := none}
      if playbackFails then catchP s2 "Audio playback failed" tr
      else fin (s2, tr)

/-- `startSession` (`conversation.svelte.ts` lines 15-20): marks the
session active, shows `thinking`, clears the error and runs the greeting
request. -/
def startSession (s : ConvState) (r : FetchOutcome) : ConvState × List PEvent :=
  requestGreeting {s with isSessionActive := true, avatarState := .thinking, error := none} r

/-- Does this network outcome make `requestGreeting` take its catch
branch?  True for a thrown fetch error, a non-ok status, a missing body, a
header that fails to decode or parse, and a playback rejection. -/
def greetingFails : FetchOutcome → Bool
  | .netError _ => true
  | .httpError _ => true
  | .noBody => true
  | .stream chunks playbackFails =>
    (headerTextField (demux chunks).textBytes).isNone || playbackFails

/-- Result of one Hono route invocation: a JSON response with its HTTP
status, or a streamed octet response given by its list of enqueued
chunks. -/
inductive RouteResult where
  | jsonRes (status : Nat) (body : Json)
  | streamRes (chunks : List Bytes)
deriving Repr, Inhabited

/-- Lower-case hexadecimal digit. -/
def hexDigit (n : Nat) : Char :=
  if n < 10 then Char.ofNat (48 + n) else Char.ofNat (87 + n)

/-- `JSON.stringify` escaping of one string character. -/
def jsonEscapeChar (c : Char) : List Char :=
  if c = '"' then ['\\', '"']
  else if c = '\\' then ['\\', '\\']
  else if c = '\n' then ['\\', 'n']
  else if c = '\r' then ['\\', 'r']
  else if c = '\t' then ['\\', 't']
  else if c.toNat = 8 then ['\\', 'b']
  else if c.toNat = 12 then ['\\', 'f']
  else if c.toNat < 0x20 then
    ['\\', 'u', '0', '0', hexDigit (c.toNat / 16), hexDigit (c.toNat % 16)]
  else [c]

/-- `JSON.stringify` escaping of a string body. -/
def jsonEscape (s : String) : String :=
  String.mk ((s.data.map jsonEscapeChar).flatten)

/-- `JSON.stringify({ text })`, the `/greeting` header object. -/
def greetingHeader (text : String) : String :=
  "\x7b\"text\":\"" ++ jsonEscape text ++ "\"\x7d"

/-- `JSON.stringify({ text, transcript })`, the `/process-audio` header
object (insertion order: `text` first). -/
def processHeader (text transcript : String) : String :=
  "\x7b\"text\":\"" ++ jsonEscape text ++ "\",\"transcript\":\"" ++ jsonEscape transcript ++ "\"\x7d"

/-- The fallback greeting text hardcoded in the `/greeting` route. -/
def serverGreetingFallback : String :=
  "How has your day been so far? I\x27d love to hear about it."

/-- The `/greeting` route (`index.ts` lines 22-80).  `llm` is the awaited
chat completion — `Except.error` when the call throws, otherwise the
optional `choices[0]?.message?.content`; `tts` is the awaited speech
call with its optional streamed body.  A throw anywhere lands in the
catch branch, which answers 500 with `{ error, success: false }`. -/
def greetingRoute (llm : Except String (Option String))
    (tts : Except String (Option (List Bytes))) : RouteResult :=
  match llm with
  | .error m => .jsonRes 500 (.obj [("error", .str m), ("success", .bool false)])
  | .ok content =>
    let responseText :=
      match content with
      | some c => if jsTrim c = "" then serverGreetingFallback else jsTrim c
      | none => serverGreetingFallback
    match tts with
    | .error m => .jsonRes 500 (.obj [("error", .str m), ("success", .bool false)])
    | .ok body =>
      let textLine := utf8Encode (greetingHeader responseText) ++ [NL]
      .streamRes (textLine :: (match body with | some cs => cs | none => []))

/-- The `/process-audio` route (`index.ts` lines 84-191).  Inputs: the
optional audio form file, the optional `messages` form string, and the
awaited whisper transcription, chat completion (already concatenated from
its stream) and speech synthesis.  The missing-file validation answers
400 with only an `error` field; every thrown error answers 500 with
`{ error, success: false }`; an empty-trimmed transcript answers with the
constant header line and no audio; otherwise the response streams the
header line followed by the synthesis chunks. -/
def processAudioRoute (audioFile : Option Bytes) (messagesJson : Option String)
    (whisper : Except String String) (llm : Except String String)
    (tts : Except String (Option (List Bytes))) : RouteResult :=
  match audioFile with
  | none => .jsonRes 400 (.obj [("error", .str "No audio file provided")])
  | some _ =>
    let parsedMessages : Option (Option Json) :=
      match messagesJson with
      | none => some none
      | some mj =>
        if mj = "" then some none
        else
          match jsonParse mj with
          | none => none
          | some v => some (some v)
    match parsedMessages with
    | none => .jsonRes 500 (.obj [("error", .str jsonErrorMsg), ("success", .bool false)])
    | some _ =>
      match whisper with
      | .error m => .jsonRes 500 (.obj [("error", .str m), ("success", .bool false)])
      | .ok transcript =>
        if jsTrim transcript = "" then
          .streamRes [utf8Encode (processHeader "" "") ++ [NL]]
        else
          match llm with
          | .error m => .jsonRes 500 (.obj [("error", .str m), ("success", .bool false)])
          | .ok streamedText =>
            let responseText :=
              if streamedText = "" then
                "I apologize, I had trouble understanding. Could you please repeat that?"
              else streamedText
            match tts with
            | .error m => .jsonRes 500 (.obj [("error", .str m), ("success", .bool false)])
            | .ok body =>
              let textLine := utf8Encode (processHeader responseText transcript) ++ [NL]
              .streamRes (textLine :: (match body with | some cs => cs | none => []))

/-- The `/analyze` route (`index.ts` lines 193-220).  `llm` is the awaited
completion with its optional message content; a falsy content falls back
to the empty object, the content is `JSON.parse`d (a syntax error takes
the catch branch) and the parsed value is returned verbatim as
`{ analysis, success: true }` — no schema validation is applied. -/
def analyzeRoute (llm : Except String (Option String)) : RouteResult :=
  match llm with
  | .error m => .jsonRes 500 (.obj [("error", .str m), ("success", .bool false)])
  | .ok content =>
    let analysisText :=
      match content with
      | some c => if c = "" then "\x7b\x7d" else c
      | none => "\x7b\x7d"
    match jsonParse analysisText with
    | none => .jsonRes 500 (.obj [("error", .str jsonErrorMsg), ("success", .bool false)])
    | some analysis => .jsonRes 200 (.obj [("analysis", analysis), ("success", .bool true)])

/-- Field access on a parsed JSON object. -/
def getField (j : Json) (key : String) : Option Json :=
  match j with
  | .obj fs => lookupLast fs key
  | _ => none

/-- Does the body of an error response carry a string `error` field and
`success: false`? -/
def errorBodyConforms (j : Json) : Bool :=
  (match getField j "error" with | some (.str _) => true | _ => false) &&
  (match getField j "success" with | some (.bool false) => true | _ => false)

/-- `z.string()`. -/
def isStr : Json → Bool
  | .str _ => true
  | _ => false

/-- `z.array(z.string())`. -/
def isStringArray : Json → Bool
  | .arr xs => xs.all isStr
  | _ => false

/-- The zod `scoreSchema`: `z.number().min(1).max(10)` — any number
between 1 and 10, integral or not. -/
def scoreOk (j : Json) : Bool :=
  match j with
  | .num q => decide (1 ≤ q) && decide (q ≤ 10)
  | _ => false

/-- Does the object hold a field `key` satisfying `p`?  Required-key check
of a zod object (zod strips unknown keys rather than rejecting them). -/
def fieldCheck (fs : List (String × Json)) (key : String) (p : Json → Bool) : Bool :=
  match lookupLast fs key with
  | some v => p v
  | none => false

/-- The zod `CognitiveDomainSchema`: a score plus two string arrays. -/
def domainOk (j : Json) : Bool :=
  match j with
  | .obj fs =>
    fieldCheck fs "score" scoreOk &&
    fieldCheck fs "observations" isStringArray &&
    fieldCheck fs "concerns" isStringArray
  | _ => false

/-- The `overallSeverity` enumeration. -/
def severityOk (j : Json) : Bool :=
  match j with
  | .str s => s = "normal" || s = "mild" || s = "moderate" || s = "significant"
  | _ => false

/-- The zod `CognitiveAssessmentSchema` — the documented `StructuredReport`
shape: five cognitive domains, the severity enumeration, a summary string
and string recommendations. -/
def reportOk (j : Json) : Bool :=
  match j with
  | .obj fs =>
    fieldCheck fs "memory" domainOk &&
    fieldCheck fs "language" domainOk &&
    fieldCheck fs "attention" domainOk &&
    fieldCheck fs "orientation" domainOk &&
    fieldCheck fs "executiveFunction" domainOk &&
    fieldCheck fs "overallSeverity" severityOk &&
    fieldCheck fs "summary" isStr &&
    fieldCheck fs "recommendations" isStringArray
  | _ => false

/-- The score of one cognitive domain of a report. -/
def domainScore (j : Json) (dom : String) : Option ℚ :=
  match getField j dom with
  | some d =>
    match getField d "score" with
    | some (.num q) => some q
    | _ => none
  | none => none

/-- A report accepted by the schema whose `memory` score is the
non-integral number `5.5`. -/
def intFreeDomain : Json :=
  .obj [("score", .num (Rat.mk' 11 2)), ("observations", .arr []), ("concerns", .arr [])]

/-- A full report accepted by `reportOk` with a non-integral score. -/
def intFreeReport : Json :=
  .obj [("memory", intFreeDomain),
        ("language", .obj [("score", .num 10), ("observations", .arr []), ("concerns", .arr [])]),
        ("attention", .obj [("score", .num 10), ("observations", .arr []), ("concerns", .arr [])]),
        ("orientation", .obj [("score", .num 10), ("observations", .arr []), ("concerns", .arr [])]),
        ("executiveFunction", .obj [("score", .num 10), ("observations", .arr []), ("concerns", .arr [])]),
        ("overallSeverity", .str "normal"),
        ("summary", .str "ok"),
        ("recommendations", .arr [])]

/-- VAD loudness threshold (`SILENCE_THRESHOLD = 5`). -/
def SILENCE_THRESHOLD : ℚ := 5

/-- Silence duration ending a turn (`SILENCE_TIMEOUT = 2000` ms). -/
def SILENCE_TIMEOUT : ℤ := 2000

/-- Warmup period during which silence is ignored (`WARMUP_PERIOD = 1500`
ms). -/
def WARMUP_PERIOD : ℤ := 1500

/-- Independent minimum recording guard (`MIN_RECORDING_MS = 500` ms). -/
def MIN_RECORDING_MS : ℤ := 500

/-- Per-turn recorder and VAD state (`VoiceRecorder.svelte` lines 43-58).
Audio chunks are opaque identifiers; `ondataavailable` only pushes
nonempty blobs, so each identifier stands for a nonempty chunk. -/
structure TurnState where
  turnStartTime : ℤ
  hasSpeechStarted : Bool
  silenceStart : Option ℤ
  isSendingSilence : Bool
  audioChunks : List Nat
  isListening : Bool
  awaitingResponse : Bool
deriving Repr, DecidableEq

/-- The state right after `startTurn` began recording at time `t0`. -/
def initTurn (t0 : ℤ) : TurnState :=
  ⟨t0, false, none, false, [], true, false⟩

/-- `stopTurn(sendAudio)` (`VoiceRecorder.svelte` lines 197-229): stop
monitoring and listening; when `sendAudio` is set, the chunk list and the
speech flag are captured and the recorder's stop event fires
`onRecordingComplete` with them — but only if chunks were captured and
speech was observed; otherwise `onstop` is overridden to discard.  The
returned list holds the completion events fired. -/
def stopTurn (sendAudio : Bool) (s : TurnState) : TurnState × List (List Nat) :=
  let s1 : TurnState :=
    {s with isListening := false, silenceStart := none, isSendingSilence := false}
  if sendAudio then
    ({s1 with awaitingResponse := true},
     if s.audioChunks ≠ [] ∧ s.hasSpeechStarted then [s.audioChunks] else [])
  else (s1, [])

/-- One `updateLevel` tick (`VoiceRecorder.svelte` lines 264-292) at time
`now` with measured loudness `level` (the normalized 0-100 value the
monitor computes before the VAD logic runs).  `now` stands for the
`Date.now()` reads of the tick.  Loudness at or above the threshold marks
speech and clears any silence run; below it, once speech was observed and
both time guards passed, a silence run is started or continued, and a run
longer than `SILENCE_TIMEOUT` stops the turn with `sendAudio = true`. -/
def updateLevel (s : TurnState) (now : ℤ) (level : ℚ) : TurnState × List (List Nat) :=
  if s.isListening = false then (s, [])
  else
    let elapsed := now - s.turnStartTime
    let s1 : TurnState :=
      if SILENCE_THRESHOLD ≤ level then
        {s with hasSpeechStarted := true, silenceStart := none, isSendingSilence := false}
      else s
    if s1.hasSpeechStarted = true ∧ WARMUP_PERIOD < elapsed ∧ MIN_RECORDING_MS < elapsed then
      if level < SILENCE_THRESHOLD then
        match s1.silenceStart with
        | none => ({s1 with silenceStart := some now}, [])
        | some ss =>
          if SILENCE_TIMEOUT < now - ss then
            stopTurn true {s1 with isSendingSilence := false}
          else if SILENCE_TIMEOUT / 2 < now - ss then
            ({s1 with isSendingSilence := true}, [])
          else (s1, [])
      else (s1, [])
    else (s1, [])

/-- One interleaved event of a recording turn: a recorder data chunk or a
level-monitor tick. -/
inductive TurnEvent where
  | chunk (c : Nat)
  | sample (now : ℤ) (level : ℚ)
deriving Repr, DecidableEq

/-- Apply one turn event: `ondataavailable` appends the chunk while the
turn's recorder is live; a tick runs `updateLevel`. -/
def turnStep (s : TurnState) (e : TurnEvent) : TurnState × List (List Nat) :=
  match e with
  | .chunk c => (if s.isListening then {s with audioChunks := s.audioChunks ++ [c]} else s, [])
  | .sample now level => updateLevel s now level

/-- Run a turn over an event sequence, collecting every completion event
fired. -/
def runTurn (s : TurnState) : List TurnEvent → TurnState × List (List Nat)
  | [] => (s, [])
  | e :: es =>
    let p := turnStep s e
    let q := runTurn p.1 es
    (q.1, p.2 ++ q.2)

/-- The chunk payloads of an event list, in order. -/
def chunksOf (es : List TurnEvent) : List Nat :=
  es.filterMap fun e => match e with | .chunk c => some c | .sample _ _ => none

/-- Session-level bookkeeping around `startTurn`: the two guard flags, mic
possession, and counters of recorders created and monitor loops started,
which make double-starts observable. -/
structure RecState where
  isListening : Bool
  startingTurn : Bool
  hasStream : Bool
  recordersCreated : Nat
  monitorsStarted : Nat
deriving Repr, DecidableEq

/-- `startTurn` (`VoiceRecorder.svelte` lines 146-190) run to completion
with mic acquisition outcome `micOk`: the guard returns unchanged when a
turn is listening or already starting; a failed acquisition returns with
`startingTurn` cleared; otherwise one recorder is created, listening
begins and one monitor loop starts, and `finally` clears
`startingTurn`. -/
def startTurn (micOk : Bool) (s : RecState) : RecState :=
  if s.isListening || s.startingTurn then s
  else if !s.hasStream && !micOk then {s with startingTurn := false}
  else
    {s with hasStream := true,
            recordersCreated := s.recordersCreated + 1,
            isListening := true,
            monitorsStarted := s.monitorsStarted + 1,
            startingTurn := false}

/-- The state observable while a first `startTurn` call is suspended in
`await acquireMic()`: its `startingTurn` flag is already set. -/
def midAcquire (s : RecState) : RecState := {s with startingTurn := true}

/-- The concrete wire header of the protocol round-trip scenario. -/
def hdrHiYo : Bytes := asciiBytes "\x7b\"text\":\"hi\",\"transcript\":\"yo\"\x7d"

theorem splitNl_of_not_mem {c : Bytes} (h : NL ∉ c) : splitNl c = none := by
  induction c with
  | nil => rfl
  | cons b bs ih =>
    have hb : ¬ b = NL := fun hbe => h (hbe ▸ List.mem_cons_self b bs)
    have hbs : NL ∉ bs := fun hm => h (List.mem_cons_of_mem b hm)
    simp [splitNl, hb, ih hbs]

theorem splitNl_append_nl {h : Bytes} (t : Bytes) (hnl : NL ∉ h) :
    splitNl (h ++ NL :: t) = some (h, t) := by
  induction h with
  | nil => simp [splitNl]
  | cons b bs ih =>
    have hb : ¬ b = NL := fun hbe => hnl (hbe ▸ List.mem_cons_self b bs)
    have hbs : NL ∉ bs := fun hm => hnl (List.mem_cons_of_mem b hm)
    simp [splitNl, hb, ih hbs]

theorem if_isEmpty_eq (l : Bytes) : (if l.isEmpty then ([] : Bytes) else l) = l := by
  cases l <;> simp

/-- Bytes before the first newline are determined: two decompositions of
one stream around a first newline agree. -/
theorem first_nl_unique {t h x y : Bytes} (ht : NL ∉ t) (hh : NL ∉ h)
    (heq : t ++ NL :: x = h ++ NL :: y) : t = h ∧ x = y := by
  induction t generalizing h with
  | nil =>
    cases h with
    | nil => simpa using heq
    | cons b hs =>
      have : NL = b := by simpa using congrArg (·.head?) heq
      exact absurd (this ▸ List.mem_cons_self b hs) hh
  | cons a ts ih =>
    cases h with
    | nil =>
      have : a = NL := by simpa using congrArg (·.head?) heq
      exact absurd (this ▸ List.mem_cons_self a ts) ht
    | cons b hs =>
      have hab : a = b := by simpa using congrArg (·.head?) heq
      have htail : ts ++ NL :: x = hs ++ NL :: y := by
        simpa using congrArg (·.tail) heq
      have hts : NL ∉ ts := fun hm => ht (List.mem_cons_of_mem a hm)
      have hhs : NL ∉ hs := fun hm => hh (List.mem_cons_of_mem b hm)
      obtain ⟨h1, h2⟩ := ih hts hhs htail
      exact ⟨by rw [hab, h1], h2⟩

/-- A newline-free chunk at the head of a stream whose first newline lies
in `h` is an initial segment of `h`. -/
theorem newline_free_head_factor {c x h y : Bytes} (hc : NL ∉ c) (hh : NL ∉ h)
    (heq : c ++ x = h ++ NL :: y) : ∃ h2, h = c ++ h2 ∧ x = h2 ++ NL :: y := by
  induction c generalizing h with
  | nil => exact ⟨h, rfl, by simpa using heq⟩
  | cons a cs ih =>
    cases h with
    | nil =>
      have : a = NL := by simpa using congrArg (·.head?) heq
      exact absurd (this ▸ List.mem_cons_self a cs) hc
    | cons b hs =>
      have hab : a = b := by simpa using congrArg (·.head?) heq
      have htail : cs ++ x = hs ++ NL :: y := by
        simpa using congrArg (·.tail) heq
      have hcs : NL ∉ cs := fun hm => hc (List.mem_cons_of_mem a hm)
      have hhs : NL ∉ hs := fun hm => hh (List.mem_cons_of_mem b hm)
      obtain ⟨h2, e1, e2⟩ := ih hcs hhs htail
      exact ⟨h2, by rw [hab, e1, List.cons_append], e2⟩

/-- Every chunk holding a newline splits as the newline-free part before
its first newline and the part after it. -/
theorem splitNl_decomp {c : Bytes} (hc : NL ∈ c) :
    ∃ t d, splitNl c = some (t, d) ∧ c = t ++ NL :: d ∧ NL ∉ t := by
  induction c with
  | nil => cases hc
  | cons b bs ih =>
    by_cases hb : b = NL
    · exact ⟨[], bs, by simp [splitNl, hb], by simp [hb], by simp⟩
    · have hbs : NL ∈ bs := by
        rcases List.mem_cons.mp hc with h | h
        · exact absurd h.symm hb
        · exact h
      obtain ⟨t, d, hs, hdec, hnt⟩ := ih hbs
      refine ⟨b :: t, d, by simp [splitNl, hb, hs], by simp [hdec], ?_⟩
      intro hm
      rcases List.mem_cons.mp hm with h | h
      · exact hb h.symm
      · exact hnt h

/-- Correctness of the delimiter scan: however a stream consisting of a
newline-free header, the `0x0a` delimiter and an arbitrary payload is cut
into chunks, the scan recovers exactly the header bytes and exactly the
payload bytes, and reports the delimiter as found. -/
theorem demux_roundtrip (header payload : Bytes) (chunks : List Bytes)
    (hnl : NL ∉ header) (hflat : chunks.flatten = header ++ NL :: payload) :
    demux chunks = ⟨header, payload, true⟩ := by
  induction chunks generalizing header with
  | nil =>
    exfalso
    rw [List.flatten_nil] at hflat
    exact List.cons_ne_nil NL payload (List.append_eq_nil.mp hflat.symm).2
  | cons c rest ih =>
    have hflat' : c ++ rest.flatten = header ++ NL :: payload := by
      rw [List.flatten_cons] at hflat; exact hflat
    by_cases hc : NL ∈ c
    · obtain ⟨t, d, hs, hdec, hnt⟩ := splitNl_decomp hc
      have hassoc : t ++ NL :: (d ++ rest.flatten) = header ++ NL :: payload := by
        rw [hdec] at hflat'
        simpa using hflat'
      obtain ⟨h1, h2⟩ := first_nl_unique hnt hnl hassoc
      have hd : (if d = [] then ([] : Bytes) else d) ++ rest.flatten = payload := by
        cases d <;> simpa using h2
      simp [demux, hs, if_isEmpty_eq, h1, hd]
    · have hsn : splitNl c = none := splitNl_of_not_mem hc
      obtain ⟨h2, e1, e2⟩ := newline_free_head_factor hc hnl hflat'
      have hh2 : NL ∉ h2 := fun hm => hnl (e1 ▸ List.mem_append_right c hm)
      have := ih h2 hh2 e2
      simp [demux, hsn, this, e1]

/-- Claim C1: for every response byte stream consisting of the UTF-8 JSON
header for text "hi" and transcript "yo" followed by one 0x0a byte and
then arbitrary payload bytes, and for every way of cutting that stream
into chunks (including cuts inside the JSON and inside the payload), the
demultiplexing loop of `processUserAudio` recovers text "hi" and
transcript "yo" from the header, and `firstAudioChunk` followed by all
subsequently read chunks is exactly the original payload. -/
theorem protocol_roundtrip (payload : Bytes) (chunks : List Bytes)
    (hflat : chunks.flatten = hdrHiYo ++ NL :: payload) :
    (demux chunks).textBytes = hdrHiYo ∧
    (demux chunks).audioBytes = payload ∧
    clientHeaderFields (demux chunks).textBytes = some ("hi", "yo") := by
  have hnl : NL ∉ hdrHiYo := by decide
  have h := demux_roundtrip hdrHiYo payload chunks hnl hflat
  rw [h]
  exact ⟨rfl, rfl, by rfl⟩

/-- Witness for C1: a chunking that cuts inside the JSON header and inside
the payload. -/
theorem protocol_roundtrip_witness :
    (demux [hdrHiYo.take 7, hdrHiYo.drop 7 ++ NL :: [77], [88, 99]]).textBytes = hdrHiYo ∧
    (demux [hdrHiYo.take 7, hdrHiYo.drop 7 ++ NL :: [77], [88, 99]]).audioBytes = [77, 88, 99] ∧
    clientHeaderFields (demux [hdrHiYo.take 7, hdrHiYo.drop 7 ++ NL :: [77], [88, 99]]).textBytes =
      some ("hi", "yo") :=
  protocol_roundtrip [77, 88, 99] [hdrHiYo.take 7, hdrHiYo.drop 7 ++ NL :: [77], [88, 99]]
    (by decide)

/-- Claim C10: `processUserAudio` is guarded against re-entry: when
`isProcessing` is already set, a call returns immediately as a no-op,
leaving messages, avatar state, error, the processing flag and the
current playback handle all unchanged and firing no event. -/
theorem processUserAudio_reentry_noop (s : ConvState) (r : FetchOutcome)
    (h : s.isProcessing = true) : processUserAudio s r = (s, []) := by
  simp [processUserAudio, h]

/-- Witness for C10 at a concrete busy state. -/
theorem processUserAudio_reentry_noop_witness :
    processUserAudio ⟨[⟨.user, "hello"⟩], .thinking, true, true, none, some 3⟩ .noBody =
      (⟨[⟨.user, "hello"⟩], .thinking, true, true, none, some 3⟩, []) :=
  processUserAudio_reentry_noop _ _ rfl

/-- Claim C5: within a turn whose transcript is non-empty, the JSON header
is fully parsed before any audio byte reaches the player — the trace
parses the header first and hands the player the audio last — and the two
messages (user transcript, then assistant reply) are appended to the
conversation state before playback begins. -/
theorem messages_before_playback (s : ConvState) (chunks : List Bytes) (pf : Bool)
    (text transcript : String)
    (hp : s.isProcessing = false)
    (hf : clientHeaderFields (demux chunks).textBytes = some (text, transcript))
    (ht : ¬ jsTrim transcript = "") :
    (processUserAudio s (.stream chunks pf)).2 =
      [PEvent.headerParsed text transcript,
       .messageAdded .user transcript,
       .messageAdded .assistant text,
       .playbackStarted (demux chunks).audioBytes] ∧
    (processUserAudio s (.stream chunks pf)).1.messages =
      s.messages ++ [⟨.user, transcript⟩, ⟨.assistant, text⟩] := by
  cases pf <;> simp [processUserAudio, hp, hf, ht]

/-- Witness for C5 at a concrete single-chunk response. -/
theorem messages_before_playback_witness :
    (processUserAudio ⟨[], .listening, false, true, none, none⟩
        (.stream [hdrHiYo ++ NL :: [5, 6]] false)).2 =
      [PEvent.headerParsed "hi" "yo", .messageAdded .user "yo",
       .messageAdded .assistant "hi",
       .playbackStarted (demux [hdrHiYo ++ NL :: [5, 6]]).audioBytes] ∧
    (processUserAudio ⟨[], .listening, false, true, none, none⟩
        (.stream [hdrHiYo ++ NL :: [5, 6]] false)).1.messages =
      ([] : List Message) ++ [⟨.user, "yo"⟩, ⟨.assistant, "hi"⟩] :=
  messages_before_playback _ _ _ _ _ rfl (by rfl) (by decide)

/-- Claim C4: a turn whose response header carries an empty or
whitespace-only transcript creates no message, returns the avatar to
listening while the session is active, never starts playback (no playback
event, playback handle untouched); and the server answers an empty
transcription with only the constant header line and no audio bytes. -/
theorem empty_transcript_noop (s : ConvState) (chunks : List Bytes) (pf : Bool)
    (text transcript : String) (audio : Bytes) (w : String)
    (llm : Except String String) (tts : Except String (Option (List Bytes)))
    (hp : s.isProcessing = false) (hact : s.isSessionActive = true)
    (hf : clientHeaderFields (demux chunks).textBytes = some (text, transcript))
    (ht : jsTrim transcript = "") (hw : jsTrim w = "") :
    (processUserAudio s (.stream chunks pf)).1.messages = s.messages ∧
    (processUserAudio s (.stream chunks pf)).1.avatarState = AvatarState.listening ∧
    (processUserAudio s (.stream chunks pf)).1.currentAudio = s.currentAudio ∧
    (processUserAudio s (.stream chunks pf)).2 = [PEvent.headerParsed text transcript] ∧
    processAudioRoute (some audio) none (.ok w) llm tts =
      .streamRes [utf8Encode (processHeader "" "") ++ [NL]] := by
  refine ⟨?_, ?_, ?_, ?_, ?_⟩ <;>
    simp [processUserAudio, processAudioRoute, hp, hact, hf, ht, hw]

/-- Witness for C4: a whitespace-only transcript on both sides. -/
theorem empty_transcript_noop_witness :
    (processUserAudio ⟨[], .thinking, false, true, none, none⟩
        (.stream [utf8Encode (processHeader "" "") ++ [NL]] false)).1.messages = [] ∧
    (processUserAudio ⟨[], .thinking, false, true, none, none⟩
        (.stream [utf8Encode (processHeader "" "") ++ [NL]] false)).1.avatarState =
      AvatarState.listening ∧
    (processUserAudio ⟨[], .thinking, false, true, none, none⟩
        (.stream [utf8Encode (processHeader "" "") ++ [NL]] false)).1.currentAudio = none ∧
    (processUserAudio ⟨[], .thinking, false, true, none, none⟩
        (.stream [utf8Encode (processHeader "" "") ++ [NL]] false)).2 =
      [PEvent.headerParsed "" ""] ∧
    processAudioRoute (some [0]) none (.ok " ") (.ok "x") (.ok none) =
      .streamRes [utf8Encode (processHeader "" "") ++ [NL]] :=
  empty_transcript_noop _ _ _ _ _ _ _ _ _ rfl rfl (by rfl) (by decide) (by decide)

/-- Claim C7: every failing greeting request during `startSession` (thrown
fetch error, non-ok status, missing body, unparsable header or playback
rejection) appends exactly one hardcoded fallback assistant message,
records the error, and still returns the avatar to listening with the
session active. -/
theorem greeting_failure_fallback (s : ConvState) (r : FetchOutcome)
    (hfail : greetingFails r = true) :
    (startSession s r).2.count PEvent.fallbackAdded = 1 ∧
    (startSession s r).1.messages.getLast? = some ⟨.assistant, clientGreetingFallback⟩ ∧
    ((startSession s r).1.error).isSome = true ∧
    (startSession s r).1.avatarState = AvatarState.listening ∧
    (startSession s r).1.isSessionActive = true := by
  cases r with
  | netError m => simp [startSession, requestGreeting, List.count_cons]
  | httpError e => simp [startSession, requestGreeting, List.count_cons]
  | noBody => simp [startSession, requestGreeting, List.count_cons]
  | stream chunks pf =>
    rcases hht : headerTextField (demux chunks).textBytes with _ | text
    · simp [startSession, requestGreeting, hht, List.count_cons]
    · cases pf with
      | false => simp [greetingFails, hht] at hfail
      | true =>
        by_cases htr : jsTrim text = "" <;>
          simp [startSession, requestGreeting, hht, htr, List.count_append, List.count_cons]

/-- Witness for C7 at a missing response body. -/
theorem greeting_failure_fallback_witness :
    (startSession ⟨[], .idle, false, false, none, none⟩ .noBody).2.count PEvent.fallbackAdded = 1 ∧
    (startSession ⟨[], .idle, false, false, none, none⟩ .noBody).1.messages.getLast? =
      some ⟨.assistant, clientGreetingFallback⟩ ∧
    ((startSession ⟨[], .idle, false, false, none, none⟩ .noBody).1.error).isSome = true ∧
    (startSession ⟨[], .idle, false, false, none, none⟩ .noBody).1.avatarState =
      AvatarState.listening ∧
    (startSession ⟨[], .idle, false, false, none, none⟩ .noBody).1.isSessionActive = true :=
  greeting_failure_fallback _ _ rfl

/-- Claim C6: starting a turn is idempotent: two immediately successive
`startTurn` calls create at most one recorder and one monitoring loop, a
call arriving while a start is suspended in mic acquisition changes
nothing, and a call while a turn is listening or starting returns with
the state untouched. -/
theorem startTurn_once (s : RecState) (m1 m2 : Bool) :
    (startTurn m2 (startTurn m1 s)).recordersCreated ≤ s.recordersCreated + 1 ∧
    (startTurn m2 (startTurn m1 s)).monitorsStarted ≤ s.monitorsStarted + 1 ∧
    startTurn m2 (midAcquire s) = midAcquire s ∧
    (∀ s2 : RecState, (s2.isListening || s2.startingTurn) = true → startTurn m2 s2 = s2) := by
  refine ⟨?_, ?_, ?_, fun s2 h2 => by simp [startTurn, h2]⟩ <;>
  · rcases s with ⟨il, st, hs, rc, mc⟩
    cases il <;> cases st <;> cases hs <;> cases m1 <;> cases m2 <;>
      simp [startTurn, midAcquire]

/-- Witness for C6 from the idle session state. -/
theorem startTurn_once_witness :
    (startTurn true (startTurn true ⟨false, false, true, 0, 0⟩)).recordersCreated ≤ 0 + 1 ∧
    (startTurn true (startTurn true ⟨false, false, true, 0, 0⟩)).monitorsStarted ≤ 0 + 1 ∧
    startTurn true (midAcquire ⟨false, false, true, 0, 0⟩) = midAcquire ⟨false, false, true, 0, 0⟩ ∧
    (∀ s2 : RecState, (s2.isListening || s2.startingTurn) = true → startTurn true s2 = s2) :=
  startTurn_once ⟨false, false, true, 0, 0⟩ true true

/-- A passing required-key check yields the field value and its property. -/
theorem fieldCheck_true {fs : List (String × Json)} {key : String} {p : Json → Bool}
    (h : fieldCheck fs key p = true) : ∃ v, lookupLast fs key = some v ∧ p v = true := by
  unfold fieldCheck at h
  rcases hl : lookupLast fs key with _ | v
  · rw [hl] at h; cases h
  · rw [hl] at h; exact ⟨v, rfl, h⟩

/-- A domain accepted by the schema has a numeric score in [1, 10]. -/
theorem domainOk_score {fs : List (String × Json)} {dom : String}
    (h : fieldCheck fs dom domainOk = true) :
    ∃ q, domainScore (.obj fs) dom = some q ∧ 1 ≤ q ∧ q ≤ 10 := by
  obtain ⟨d, hd, hdo⟩ := fieldCheck_true h
  rcases d with _ | b | q | s2 | xs | dfs
  · simp [domainOk] at hdo
  · simp [domainOk] at hdo
  · simp [domainOk] at hdo
  · simp [domainOk] at hdo
  · simp [domainOk] at hdo
  · rw [show domainOk (.obj dfs) =
        (fieldCheck dfs "score" scoreOk && fieldCheck dfs "observations" isStringArray &&
          fieldCheck dfs "concerns" isStringArray) from rfl] at hdo
    simp only [Bool.and_eq_true] at hdo
    obtain ⟨v, hv, hvs⟩ := fieldCheck_true hdo.1.1
    rcases v with _ | b2 | q | s3 | ys | gfs
    · simp [scoreOk] at hvs
    · simp [scoreOk] at hvs
    · rw [show scoreOk (.num q) = (decide (1 ≤ q) && decide (q ≤ 10)) from rfl] at hvs
      simp only [Bool.and_eq_true, decide_eq_true_eq] at hvs
      exact ⟨q, by simp [domainScore, getField, hd, hv], hvs.1, hvs.2⟩
    · simp [scoreOk] at hvs
    · simp [scoreOk] at hvs
    · simp [scoreOk] at hvs

/-- Claim C8 counterexample: the validation failure where `/process-audio`
receives no audio file answers HTTP 400 with a body holding only the
error string — there is no `success: false` field, contrary to the
claim. -/
theorem missing_audio_no_success_field :
    processAudioRoute none none (.ok "") (.ok "") (.ok none) =
      .jsonRes 400 (.obj [("error", .str "No audio file provided")]) ∧
    errorBodyConforms (.obj [("error", .str "No audio file provided")]) = false :=
  ⟨rfl, by rfl⟩

/-- Claim C8 amended: every catch-path failure of `/greeting`,
`/process-audio` and `/analyze` answers 500 with a body carrying the
error string and `success: false`, but the missing-audio-file validation
failure of `/process-audio` answers 400 with an `error` field only and no
`success` field. -/
theorem error_responses_shape :
    (∀ m tts, greetingRoute (Except.error m) tts =
      .jsonRes 500 (.obj [("error", .str m), ("success", .bool false)])) ∧
    (∀ c m, greetingRoute (Except.ok c) (Except.error m) =
      .jsonRes 500 (.obj [("error", .str m), ("success", .bool false)])) ∧
    (∀ a m llm tts, processAudioRoute (some a) none (Except.error m) llm tts =
      .jsonRes 500 (.obj [("error", .str m), ("success", .bool false)])) ∧
    (∀ a w m tts, ¬ jsTrim w = "" →
      processAudioRoute (some a) none (.ok w) (.error m) tts =
        .jsonRes 500 (.obj [("error", .str m), ("success", .bool false)])) ∧
    (∀ a w llmText m, ¬ jsTrim w = "" →
      processAudioRoute (some a) none (.ok w) (.ok llmText) (.error m) =
        .jsonRes 500 (.obj [("error", .str m), ("success", .bool false)])) ∧
    (∀ m, analyzeRoute (Except.error m) =
      .jsonRes 500 (.obj [("error", .str m), ("success", .bool false)])) ∧
    (∀ m, errorBodyConforms (.obj [("error", .str m), ("success", .bool false)]) = true) ∧
    processAudioRoute none none (.ok "") (.ok "") (.ok none) =
      .jsonRes 400 (.obj [("error", .str "No audio file provided")]) ∧
    errorBodyConforms (.obj [("error", .str "No audio file provided")]) = false := by
  refine ⟨fun m tts => rfl, fun c m => ?_, fun a m llm tts => rfl, fun a w m tts hw => ?_,
    fun a w llmText m hw => ?_, fun m => rfl, fun m => ?_, rfl, by rfl⟩
  · cases c <;> rfl
  · simp [processAudioRoute, hw]
  · simp [processAudioRoute, hw]
  · simp [errorBodyConforms, getField, lookupLast]

/-- Witness for the amended C8 at a concrete thrown transcription error. -/
theorem error_responses_shape_witness :
    processAudioRoute (some [0]) none (.ok "hello") (.error "boom") (.ok none) =
      .jsonRes 500 (.obj [("error", .str "boom"), ("success", .bool false)]) :=
  error_responses_shape.2.2.2.1 [0] "hello" "boom" (.ok none) (by decide)

/-- Claim C9 counterexample: `/analyze` applies no schema validation — a
model output whose `overallSeverity` lies outside the enumeration is
returned verbatim under `success: true`, so a successful response need
not satisfy the documented shape. -/
theorem analyze_success_not_validated :
    analyzeRoute (.ok (some "\x7b\"overallSeverity\":\"bogus\"\x7d")) =
      .jsonRes 200 (.obj [("analysis", .obj [("overallSeverity", .str "bogus")]),
                          ("success", .bool true)]) ∧
    reportOk (.obj [("overallSeverity", .str "bogus")]) = false :=
  ⟨by rfl, by rfl⟩

/-- Claim C9 amended: a successful `/analyze` response returns the model's
parsed JSON unvalidated, so it satisfies the documented shape exactly
when the model output does; when the schema does hold, `overallSeverity`
is one of the four enumerated values and every domain score is a number
in [1, 10] — not necessarily an integer, as witnessed by a schema-accepted
report whose memory score is 5.5. -/
theorem analyze_success_shape :
    (∀ s j, jsonParse s = some j →
      analyzeRoute (.ok (some s)) =
        .jsonRes 200 (.obj [("analysis", j), ("success", .bool true)])) ∧
    (∀ j, reportOk j = true →
      (∃ sev, getField j "overallSeverity" = some (.str sev) ∧
        (sev = "normal" ∨ sev = "mild" ∨ sev = "moderate" ∨ sev = "significant")) ∧
      (∀ dom ∈ ["memory", "language", "attention", "orientation", "executiveFunction"],
        ∃ q, domainScore j dom = some q ∧ 1 ≤ q ∧ q ≤ 10)) ∧
    (reportOk intFreeReport = true ∧
      domainScore intFreeReport "memory" = some (11 / 2 : ℚ) ∧
      ¬ ∃ n : ℤ, ((11 : ℚ) / 2) = (n : ℚ)) := by
  refine ⟨?_, ?_, by decide, ?_, ?_⟩
  · intro s j hp
    by_cases hs : s = ""
    · subst hs
      have hnone : jsonParse "" = none := rfl
      rw [hnone] at hp
      cases hp
    · simp [analyzeRoute, hs, hp]
  · intro j hro
    rcases j with _ | b | q | s2 | xs | fs
    · simp [reportOk] at hro
    · simp [reportOk] at hro
    · simp [reportOk] at hro
    · simp [reportOk] at hro
    · simp [reportOk] at hro
    · rw [show reportOk (.obj fs) =
          (fieldCheck fs "memory" domainOk && fieldCheck fs "language" domainOk &&
           fieldCheck fs "attention" domainOk && fieldCheck fs "orientation" domainOk &&
           fieldCheck fs "executiveFunction" domainOk &&
           fieldCheck fs "overallSeverity" severityOk &&
           fieldCheck fs "summary" isStr &&
           fieldCheck fs "recommendations" isStringArray) from rfl] at hro
      simp only [Bool.and_eq_true] at hro
      constructor
      · obtain ⟨v, hv, hvs⟩ := fieldCheck_true hro.1.1.2
        rcases v with _ | b2 | q | sev | ys | gfs
        · simp [severityOk] at hvs
        · simp [severityOk] at hvs
        · simp [severityOk] at hvs
        · exact ⟨sev, by simp [getField, hv], by simpa [severityOk, or_assoc] using hvs⟩
        · simp [severityOk] at hvs
        · simp [severityOk] at hvs
      · intro dom hdom
        fin_cases hdom
        · exact domainOk_score hro.1.1.1.1.1.1.1
        · exact domainOk_score hro.1.1.1.1.1.1.2
        · exact domainOk_score hro.1.1.1.1.1.2
        · exact domainOk_score hro.1.1.1.1.2
        · exact domainOk_score hro.1.1.1.2
  · show some ((Rat.mk' 11 2 : ℚ)) = some (11 / 2 : ℚ)
    norm_num [Rat.mk'_eq_divInt, Rat.divInt_eq_div]
  · rintro ⟨n, hn⟩
    rw [div_eq_iff (by norm_num : (2 : ℚ) ≠ 0)] at hn
    have hz : (11 : ℤ) = n * 2 := by exact_mod_cast hn
    omega

/-- Witness for the amended C9: the route equation at a concrete parsed
output, and the shape consequences at the schema-accepted non-integral
report. -/
theorem analyze_success_shape_witness :
    (analyzeRoute (.ok (some "\x7b\"summary\":\"fine\"\x7d")) =
      .jsonRes 200 (.obj [("analysis", .obj [("summary", .str "fine")]),
                          ("success", .bool true)])) ∧
    ((∃ sev, getField intFreeReport "overallSeverity" = some (.str sev) ∧
        (sev = "normal" ∨ sev = "mild" ∨ sev = "moderate" ∨ sev = "significant")) ∧
      (∀ dom ∈ ["memory", "language", "attention", "orientation", "executiveFunction"],
        ∃ q, domainScore intFreeReport dom = some q ∧ 1 ≤ q ∧ q ≤ 10)) :=
  ⟨analyze_success_shape.1 "\x7b\"summary\":\"fine\"\x7d" (.obj [("summary", .str "fine")])
      (by rfl),
   analyze_success_shape.2.1 intFreeReport (by decide)⟩

/-- A tick below the threshold with speech never observed leaves the turn
state unchanged and fires nothing. -/
theorem updateLevel_no_speech {s : TurnState} {now : ℤ} {level : ℚ}
    (hsp : s.hasSpeechStarted = false) (hl : level < SILENCE_THRESHOLD) :
    updateLevel s now level = (s, []) := by
  have hnle : ¬ SILENCE_THRESHOLD ≤ level := not_le.mpr hl
  by_cases hL : s.isListening = false
  · simp [updateLevel, hL]
  · simp [updateLevel, hL, hnle, hsp]

/-- Over an event sequence whose samples all stay below the threshold,
speech is never marked and no completion fires. -/
theorem runTurn_no_speech (es : List TurnEvent) (s : TurnState)
    (hsp : s.hasSpeechStarted = false)
    (hlvl : ∀ t l, TurnEvent.sample t l ∈ es → l < SILENCE_THRESHOLD) :
    (runTurn s es).1.hasSpeechStarted = false ∧ (runTurn s es).2 = [] := by
  induction es generalizing s with
  | nil => exact ⟨hsp, rfl⟩
  | cons e es ih =>
    have htail := fun s' hs' => ih s' hs' (fun t l hm => hlvl t l (List.mem_cons_of_mem _ hm))
    cases e with
    | chunk c =>
      by_cases hL : s.isListening
      · simpa [runTurn, turnStep, hL] using
          htail {s with audioChunks := s.audioChunks ++ [c]} hsp
      · simpa [runTurn, turnStep, hL] using htail s hsp
    | sample t l =>
      have hstep : updateLevel s t l = (s, []) :=
        updateLevel_no_speech hsp (hlvl t l (List.mem_cons_self _ _))
      simpa [runTurn, turnStep, hstep] using htail s hsp

/-- Claim C2: when no loudness sample of a turn ever reaches the speech
threshold, no turn-complete event fires and no audio is handed over — and
however the turn is then stopped, discarding or even sending, nothing is
delivered, because speech was never observed. -/
theorem silent_turn_no_completion (t0 : ℤ) (es : List TurnEvent)
    (hlvl : ∀ t l, TurnEvent.sample t l ∈ es → l < SILENCE_THRESHOLD) :
    (runTurn (initTurn t0) es).2 = [] ∧
    (stopTurn false (runTurn (initTurn t0) es).1).2 = [] ∧
    (stopTurn true (runTurn (initTurn t0) es).1).2 = [] := by
  obtain ⟨h1, h2⟩ := runTurn_no_speech es (initTurn t0) rfl hlvl
  refine ⟨h2, rfl, ?_⟩
  simp [stopTurn, h1]

/-- Witness for C2: a concrete all-quiet turn that runs past every timer. -/
theorem silent_turn_no_completion_witness :
    (runTurn (initTurn 0) [.sample 100 1, .chunk 7, .sample 2600 2]).2 = [] ∧
    (stopTurn false (runTurn (initTurn 0) [.sample 100 1, .chunk 7, .sample 2600 2]).1).2 = [] ∧
    (stopTurn true (runTurn (initTurn 0) [.sample 100 1, .chunk 7, .sample 2600 2]).1).2 = [] :=
  silent_turn_no_completion 0 _ (by
    intro t l hm
    simp only [List.mem_cons, List.not_mem_nil, or_false] at hm
    rcases hm with h | h | h
    · cases h; norm_num [SILENCE_THRESHOLD]
    · cases h
    · cases h; norm_num [SILENCE_THRESHOLD])

/-- A stopped turn ignores every further event and fires nothing more. -/
theorem runTurn_stopped (es : List TurnEvent) (s : TurnState)
    (h : s.isListening = false) : runTurn s es = (s, []) := by
  induction es with
  | nil => rfl
  | cons e es ih =>
    cases e with
    | chunk c => simp [runTurn, turnStep, h, ih]
    | sample t l => simp [runTurn, turnStep, updateLevel, h, ih]

/-- No turn event changes the turn's start time. -/
theorem runTurn_turnStartTime (es : List TurnEvent) (s : TurnState) :
    (runTurn s es).1.turnStartTime = s.turnStartTime := by
  induction es generalizing s with
  | nil => rfl
  | cons e es ih =>
    have hstep : (turnStep s e).1.turnStartTime = s.turnStartTime := by
      cases e with
      | chunk c => by_cases hL : s.isListening <;> simp [turnStep, hL]
      | sample t l =>
        simp only [turnStep, updateLevel, stopTurn]
        repeat' split
        all_goals simp
    simp only [runTurn]
    rw [ih, hstep]

/-- A below-threshold tick during a silence run not yet past the timeout
changes at most the pre-send indicator and fires nothing. -/
theorem updateLevel_silence_hold {s : TurnState} {t : ℤ} {l : ℚ} {ss : ℤ}
    (hL : s.isListening = true) (hsp : s.hasSpeechStarted = true)
    (hss : s.silenceStart = some ss) (hl : l < SILENCE_THRESHOLD)
    (hts : t - ss ≤ SILENCE_TIMEOUT) :
    ∃ b, updateLevel s t l = ({s with isSendingSilence := b}, []) := by
  have hnle : ¬ SILENCE_THRESHOLD ≤ l := not_le.mpr hl
  have hnlt : ¬ SILENCE_TIMEOUT < t - ss := not_lt.mpr hts
  obtain ⟨ts, hsS, sil, snd, ch, lis, awa⟩ := s
  simp only at hL hsp hss
  subst hL hsp hss
  by_cases hg : WARMUP_PERIOD < t - ts ∧ MIN_RECORDING_MS < t - ts
  · by_cases hg2 : SILENCE_TIMEOUT / 2 < t - ss
    · exact ⟨true, by simp [updateLevel, hnle, hg.1, hg.2, hl, hnlt, hg2]⟩
    · exact ⟨snd, by simp [updateLevel, hnle, hg.1, hg.2, hl, hnlt, hg2]⟩
  · refine ⟨snd, ?_⟩
    rcases not_and_or.mp hg with h | h <;> simp [updateLevel, hnle, h]

/-- The first below-threshold tick after speech with both time guards
passed starts the silence run at the tick's time. -/
theorem updateLevel_silence_entry {s : TurnState} {t : ℤ} {l : ℚ}
    (hL : s.isListening = true) (hsp : s.hasSpeechStarted = true)
    (hss : s.silenceStart = none) (hl : l < SILENCE_THRESHOLD)
    (hw : WARMUP_PERIOD < t - s.turnStartTime) (hm : MIN_RECORDING_MS < t - s.turnStartTime) :
    updateLevel s t l = ({s with silenceStart := some t}, []) := by
  have hnle : ¬ SILENCE_THRESHOLD ≤ l := not_le.mpr hl
  simp [updateLevel, hL, hnle, hsp, hw, hm, hl, hss]

/-- A below-threshold tick past the timeout with both guards passed stops
the turn and fires the completion carrying the accumulated chunks. -/
theorem updateLevel_trigger {s : TurnState} {t : ℤ} {l : ℚ} {ss : ℤ}
    (hL : s.isListening = true) (hsp : s.hasSpeechStarted = true)
    (hss : s.silenceStart = some ss) (hl : l < SILENCE_THRESHOLD)
    (hw : WARMUP_PERIOD < t - s.turnStartTime) (hm : MIN_RECORDING_MS < t - s.turnStartTime)
    (ht : SILENCE_TIMEOUT < t - ss) (hch : s.audioChunks ≠ []) :
    updateLevel s t l =
      ({s with isListening := false, silenceStart := none, isSendingSilence := false,
               awaitingResponse := true}, [s.audioChunks]) := by
  have hnle : ¬ SILENCE_THRESHOLD ≤ l := not_le.mpr hl
  simp [updateLevel, stopTurn, hL, hnle, hsp, hw, hm, hl, hss, ht, hch]

/-- During a silence run, below-threshold ticks inside the timeout and any
number of chunks keep the run alive; the first tick past the timeout fires
exactly one completion carrying every chunk accumulated so far, and later
events are ignored. -/
theorem runTurn_silence_run (es1 : List TurnEvent) (s : TurnState) (ss tk : ℤ) (lk : ℚ)
    (es2 : List TurnEvent)
    (hL : s.isListening = true) (hsp : s.hasSpeechStarted = true)
    (hss : s.silenceStart = some ss)
    (hmid : ∀ t l, TurnEvent.sample t l ∈ es1 → l < SILENCE_THRESHOLD ∧ t - ss ≤ SILENCE_TIMEOUT)
    (hlk : lk < SILENCE_THRESHOLD)
    (hwk : WARMUP_PERIOD < tk - s.turnStartTime) (hmk : MIN_RECORDING_MS < tk - s.turnStartTime)
    (htk : SILENCE_TIMEOUT < tk - ss)
    (hch : s.audioChunks ++ chunksOf es1 ≠ []) :
    (runTurn s (es1 ++ TurnEvent.sample tk lk :: es2)).2 = [s.audioChunks ++ chunksOf es1] := by
  induction es1 generalizing s with
  | nil =>
    have hch0 : s.audioChunks ≠ [] := by simpa [chunksOf] using hch
    have htrig := updateLevel_trigger hL hsp hss hlk hwk hmk htk hch0
    simp [runTurn, turnStep, htrig, runTurn_stopped, chunksOf]
  | cons e es1 ih =>
    cases e with
    | chunk c =>
      have key := ih ({s with audioChunks := s.audioChunks ++ [c]})
        (by simp [hL]) (by simp [hsp]) (by simp [hss])
        (fun t l hm => hmid t l (List.mem_cons_of_mem _ hm))
        (by simpa using hwk) (by simpa using hmk)
        (by simp)
      simp only [List.cons_append, runTurn, turnStep, hL, if_true]
      simpa [chunksOf, List.append_assoc, hL] using key
    | sample t l =>
      obtain ⟨hl2, hts2⟩ := hmid t l (List.mem_cons_self _ _)
      obtain ⟨b, hstep⟩ := updateLevel_silence_hold hL hsp hss hl2 hts2
      have key := ih ({s with isSendingSilence := b})
        (by simp [hL]) (by simp [hsp]) (by simp [hss])
        (fun t2 l2 hm => hmid t2 l2 (List.mem_cons_of_mem _ hm))
        (by simpa using hwk) (by simpa using hmk)
        (by simpa [chunksOf] using hch)
      simp only [List.cons_append, runTurn, turnStep]
      rw [hstep]
      simpa [chunksOf] using key

/-- Running the concatenation of two event lists runs them in sequence and
concatenates what they fire. -/
theorem runTurn_append (xs ys : List TurnEvent) (s : TurnState) :
    runTurn s (xs ++ ys) =
      ((runTurn (runTurn s xs).1 ys).1,
       (runTurn s xs).2 ++ (runTurn (runTurn s xs).1 ys).2) := by
  induction xs generalizing s with
  | nil => simp [runTurn]
  | cons e xs ih =>
    simp only [List.cons_append, runTurn, List.append_eq]
    rw [ih]
    simp [List.append_assoc]

/-- Claim C3: in every turn whose samples reach the threshold and then
stay below it for longer than the silence timeout — the silence run
starting and the timeout expiring after both the warmup and the
minimum-recording guards have elapsed — exactly one turn-complete event
fires, and it delivers all chunks accumulated from the start of the turn
up to the moment silence completion was declared. -/
theorem speech_then_silence_completion (t0 t1 tk : ℤ) (l1 lk : ℚ)
    (pre mids post : List TurnEvent)
    (hpre : (runTurn (initTurn t0) pre).2 = [])
    (hL : (runTurn (initTurn t0) pre).1.isListening = true)
    (hsp : (runTurn (initTurn t0) pre).1.hasSpeechStarted = true)
    (hss : (runTurn (initTurn t0) pre).1.silenceStart = none)
    (hl1 : l1 < SILENCE_THRESHOLD)
    (hw1 : WARMUP_PERIOD < t1 - t0) (hm1 : MIN_RECORDING_MS < t1 - t0)
    (hmid : ∀ t l, TurnEvent.sample t l ∈ mids → l < SILENCE_THRESHOLD ∧ t - t1 ≤ SILENCE_TIMEOUT)
    (hlk : lk < SILENCE_THRESHOLD)
    (hwk : WARMUP_PERIOD < tk - t0) (hmk : MIN_RECORDING_MS < tk - t0)
    (htk : SILENCE_TIMEOUT < tk - t1)
    (hch : (runTurn (initTurn t0) pre).1.audioChunks ++ chunksOf mids ≠ []) :
    (runTurn (initTurn t0)
        (pre ++ TurnEvent.sample t1 l1 :: (mids ++ TurnEvent.sample tk lk :: post))).2 =
      [(runTurn (initTurn t0) pre).1.audioChunks ++ chunksOf mids] := by
  have hT : (runTurn (initTurn t0) pre).1.turnStartTime = t0 :=
    runTurn_turnStartTime pre (initTurn t0)
  have hentry := updateLevel_silence_entry hL hsp hss hl1
    (by rw [hT]; exact hw1) (by rw [hT]; exact hm1)
  have hrun := runTurn_silence_run mids
      ({(runTurn (initTurn t0) pre).1 with silenceStart := some t1}) t1 tk lk post
    (by simp [hL]) (by simp [hsp]) (by simp) hmid hlk
    (by simpa [hT] using hwk) (by simpa [hT] using hmk) htk
    (by simpa using hch)
  rw [runTurn_append pre _ (initTurn t0), hpre]
  simp only [runTurn, turnStep]
  rw [hentry]
  simpa using hrun

/-- Witness for C3: speech at level 50, then a silence run with one chunk
and one intermediate quiet tick, completing on the tick past the
timeout. -/
theorem speech_then_silence_completion_witness :
    (runTurn (initTurn 0)
        ([.sample 100 50, .chunk 1] ++ TurnEvent.sample 1600 0 ::
          ([.chunk 2, .sample 2000 1] ++ TurnEvent.sample 3700 0 :: []))).2 =
      [(runTurn (initTurn 0) [.sample 100 50, .chunk 1]).1.audioChunks ++
        chunksOf [.chunk 2, .sample 2000 1]] :=
  speech_then_silence_completion 0 1600 3700 0 0
    [.sample 100 50, .chunk 1] [.chunk 2, .sample 2000 1] []
    (by decide) (by decide) (by decide) (by decide)
    (by norm_num [SILENCE_THRESHOLD])
    (by decide) (by decide)
    (by
      intro t l hm
      simp only [List.mem_cons, List.not_mem_nil, or_false] at hm
      rcases hm with h | h
      · cases h
      · cases h
        exact ⟨by norm_num [SILENCE_THRESHOLD], by norm_num [SILENCE_TIMEOUT]⟩)
    (by norm_num [SILENCE_THRESHOLD])
    (by decide) (by decide) (by decide) (by decide)
